import Mathlib

/-!
Verification development for the LocalBrain trust-boundary core
(`enhanced_security.rs`, `tool_executor.rs`, `realtime_voice.rs`,
`voice_system.rs`).

The Rust sources are shallowly embedded below.  Text is modelled as
`List Char` (Rust `&str` / `String`), paths as lists of components
(`List String`, the component view of a `PathBuf`), and the filesystem
as an explicit, symlink-free model (`FsModel`) in which `canonicalize`
(realpath) walks the components one by one, resolving `..` and requiring
the root and every traversed intermediate path, the final one included, to
exist.  Fallible Rust functions returning `anyhow::Result` become
`Except String`.
-/

namespace LocalBrain

/-- True exactly when an `Except` computation failed (a denial / hard error). -/
def isErrE {ε α : Type} : Except ε α → Bool
  | .error _ => true
  | .ok _ => false

/-! ## Character-list string utilities (Rust `str` operations) -/

/-- Model of `str::starts_with` style prefix testing: `pat` is a prefix of `l`. -/
def strHasRoot (root s : String) : Bool :=
  List.isPrefixOf root.data s.data

/-- Drop `pat` from the front of `l` when it is a literal prefix, else `none`. -/
def dropPre : List Char → List Char → Option (List Char)
  | [], l => some l
  | _ :: _, [] => none
  | p :: ps, c :: cs => if p = c then dropPre ps cs else none

/-- First occurrence of `pat` in `l`: `some (before, after)` splits around it. -/
def splitFirst (pat : List Char) : List Char → Option (List Char × List Char)
  | [] =>
    match dropPre pat [] with
    | some r => some ([], r)
    | none => none
  | c :: cs =>
    match dropPre pat (c :: cs) with
    | some r => some ([], r)
    | none =>
      match splitFirst pat cs with
      | some (b, a) => some (c :: b, a)
      | none => none

/-- Model of Rust `str::contains` (substring containment). -/
def containsL (l pat : List Char) : Bool :=
  (splitFirst pat l).isSome

/-- Model of Rust `s.split(pat).nth(1).unwrap_or("")`: the segment between the
first and second non-overlapping occurrence of `pat` (the whole remainder when
`pat` occurs exactly once), and `[]` when `pat` does not occur. -/
def splitNth1 (pat l : List Char) : List Char :=
  match splitFirst pat l with
  | none => []
  | some (_, rest) =>
    match splitFirst pat rest with
    | none => rest
    | some (mid, _) => mid

/-- Model of Rust `str::to_lowercase` (ASCII-faithful). -/
def lowerL (l : List Char) : List Char :=
  l.map Char.toLower

/-- Model of Rust `str::trim`. -/
def trimL (l : List Char) : List Char :=
  ((l.dropWhile Char.isWhitespace).reverse.dropWhile Char.isWhitespace).reverse

/-- True when the string starts with character `c`. -/
def headIsL (l : List Char) (c : Char) : Bool :=
  match l with
  | [] => false
  | a :: _ => a = c

/-! ## Regexes of `enhanced_security.rs` (lines 10-20) -/

/-- Model of `DANGEROUS_CHARS_REGEX = [\x00-\x1f\x7f-\x9f]` (line 14-16):
true when some character is a control character. -/
def dangerousL (l : List Char) : Bool :=
  l.any fun c => c.toNat ≤ 0x1f || (0x7f ≤ c.toNat && c.toNat ≤ 0x9f)

/-- One alternation step of `PATH_TRAVERSAL_REGEX` at the head of the string:
`\.\.[\\/]` or `\.\.[^/\\]` together match `..` followed by any character;
`[^/\\]\.\.` matches a non-separator followed by `..`. -/
def travAt : List Char → Bool
  | '.' :: '.' :: _ :: _ => true
  | a :: '.' :: '.' :: _ => !(a = '/' || a = '\\')
  | _ => false

/-- Model of `PATH_TRAVERSAL_REGEX.is_match` (line 10-12):
`(\.\.[\\/])|([^/\\]\.\.)|(\.\.[^/\\])` tested at every position. -/
def travMatch : List Char → Bool
  | [] => false
  | l@(_ :: rest) => travAt l || travMatch rest

/-- Model of `COMMAND_INJECTION_REGEX = [;&|`$<>]` (line 18-20); the backquote
is written by code point. -/
def cmdInjection (l : List Char) : Bool :=
  l.any fun c =>
    c = ';' || c = '&' || c = '|' || c.toNat = 96 || c = '$' || c = '<' || c = '>'

/-! ## Path model -/

/-- Split a raw path string into `PathBuf` components: split on the separator,
dropping empty and current-directory components (Rust `Path::components`
normalisation), keeping parent-directory components. -/
def splitSlashAux (cur : List Char) : List Char → List (List Char)
  | [] => [cur.reverse]
  | c :: cs => if c = '/' then cur.reverse :: splitSlashAux [] cs else splitSlashAux (c :: cur) cs

/-- Component view of a raw path string. -/
def parsePath (s : String) : List String :=
  ((splitSlashAux [] s.data).map fun l => String.mk l).filter fun c => c ≠ "" && c ≠ "."

/-- Render a component list back to the display string of the `PathBuf`
(`to_string_lossy`): `/` followed by `/`-joined components. -/
def renderAux : List String → List Char
  | [] => []
  | c :: cs => '/' :: c.data ++ renderAux cs

/-- Display string of an absolute component path. -/
def renderL (comps : List String) : List Char :=
  match comps with
  | [] => ['/']
  | _ :: _ => renderAux comps

/-- Environment of the security manager: the home directory resolved by
`dirs::home_dir`, the allowed roots and the blocked substrings
(`initialize` defaults or any other configuration), all in component view
except the blocked substrings which the source checks on the rendered string. -/
structure PolicyCfg where
  home : Option (List String)
  allowedRoots : List (List String)
  blockedPaths : List String

/-- Symlink-free filesystem model: the set of existing absolute paths in
canonical component view, and the current working directory. -/
structure FsModel where
  entries : List (List String)
  cwd : Option (List String)

/-- One step of the canonical walk: apply component `c` to the resolved
prefix, requiring the stepped-to path to exist (ENOENT otherwise). -/
def canonStep (fs : FsModel) (o : Option (List String)) (c : String) : Option (List String) :=
  match o with
  | none => none
  | some acc =>
    if c = ".." then
      if fs.entries.contains acc.dropLast then some acc.dropLast else none
    else
      if fs.entries.contains (acc ++ [c]) then some (acc ++ [c]) else none

/-- Model of `Path::canonicalize` (realpath) in a symlink-free filesystem:
walk the components one by one, resolving `..` lexically and requiring the
root and every traversed intermediate path, the final one included, to
exist; fails otherwise. -/
def canonicalizeM (fs : FsModel) (comps : List String) : Option (List String) :=
  comps.foldl (canonStep fs) (if fs.entries.contains [] then some [] else none)

/-- Model of `Path::exists` (a stat that resolves the path): true exactly
when canonicalization succeeds in the symlink-free model. -/
def FsModel.existsPath (fs : FsModel) (comps : List String) : Bool :=
  (canonicalizeM fs comps).isSome

/-- The pre-canonicalization phase of `normalize_path`
(`enhanced_security.rs` lines 252-281): home expansion (`~` takes byte
index 2 onward, which replaces the base when it is absolute), absolute
paths verbatim, relative paths joined onto a cwd that must itself sit
under an allowed root. -/
def parseBase (cfg : PolicyCfg) (fs : FsModel) (path : String) : Except String (List String) :=
  if headIsL path.data '~' then
    match cfg.home with
    | some h =>
      let rest : String := String.mk (path.data.drop 2)
      if headIsL rest.data '/' then .ok (parsePath rest)
      else .ok (h ++ parsePath rest)
    | none => .error "Cannot resolve home directory"
  else if headIsL path.data '/' then .ok (parsePath path)
  else
    match fs.cwd with
    | some c =>
      if cfg.allowedRoots.any (fun r => List.isPrefixOf r c) then .ok (c ++ parsePath path)
      else .error "Relative paths not allowed from current directory"
    | none => .error "Cannot resolve relative path"

/-- Model of `EnhancedSecurityManager::normalize_path` (lines 252-300):
resolve the base form, then canonicalize; when the target does not exist,
require the parent to exist and return the path NOT canonicalized. -/
def normalize_path (cfg : PolicyCfg) (fs : FsModel) (path : String) : Except String (List String) :=
  match parseBase cfg fs path with
  | .error e => .error e
  | .ok comps =>
    match canonicalizeM fs comps with
    | some canonical => .ok canonical
    | none =>
      match comps with
      | [] => .error "Invalid path"
      | _ :: _ =>
        if fs.existsPath comps.dropLast then .ok comps
        else .error "Parent directory does not exist"

/-- Model of `EnhancedSecurityManager::validate_path` (lines 217-249):
control-character check, traversal-pattern check on the raw string,
normalization, allowed-root component-prefix check, blocked-substring check
on the rendered string. -/
def validate_path (cfg : PolicyCfg) (fs : FsModel) (path : String) : Except String (List String) :=
  if dangerousL path.data then .error "Path contains invalid characters"
  else if travMatch path.data then .error "Path traversal detected"
  else
    match normalize_path cfg fs path with
    | .error e => .error e
    | .ok normalized =>
      if cfg.allowedRoots.any (fun r => List.isPrefixOf r normalized) then
        if cfg.blockedPaths.any (fun b => containsL (renderL normalized) b.data) then
          .error "Access to this path is blocked"
        else .ok normalized
      else .error "Path is outside allowed directories"

/-- The blocked substrings installed by the manager defaults (lines 84-91). -/
def defaultBlockedPaths : List String :=
  ["/.ssh", "/.gnupg", "/.aws", "/.config/gcloud", "/Library/Keychains", "/.localbrain_key"]

/-! ## Command validation (`enhanced_security.rs` lines 31-38, 100-170, 303-349) -/

/-- Per-command policy record (lines 31-38). -/
structure CommandPolicy where
  allowed_args : Option (List String)
  blocked_args : List String
  requires_confirmation : Bool
  max_execution_time_ms : Nat
  allowed_env_vars : List String

/-- The whitelist installed by `setup_command_whitelist` (lines 100-170);
registration order in the hash map is immaterial to lookup. -/
def defaultCommandWhitelist : List (String × CommandPolicy) :=
  [ ("ls", ⟨none, [], false, 5000, []⟩),
    ("cat", ⟨none, [], false, 10000, []⟩),
    ("grep", ⟨none, [], false, 30000, []⟩),
    ("git", ⟨some ["status", "log", "diff", "branch", "show"],
             ["push", "credential", "config"], false, 15000, []⟩),
    ("python3", ⟨none, ["-c", "--command"], true, 60000, ["PYTHONPATH"]⟩),
    ("node", ⟨none, ["-e", "--eval", "-p", "--print"], true, 60000, ["NODE_ENV"]⟩) ]

/-- Model of `Path::new(command).file_name().and_then(to_str).unwrap_or(command)`
(lines 310-313): the last component, falling back to the raw command when
there is none or it is a parent-directory component. -/
def fileName (command : String) : String :=
  let comps := parsePath command
  match comps.getLast? with
  | some l => if l = ".." then command else l
  | none => command

/-- The per-argument loop of `validate_command` (lines 330-343): blocked
arguments, then injection characters, in order. -/
def checkArgsLoop (policy : CommandPolicy) : List String → Except String Unit
  | [] => .ok ()
  | a :: rest =>
    if policy.blocked_args.contains a then
      .error ("Argument is blocked for this command: " ++ a)
    else if cmdInjection a.data then .error "Argument contains dangerous characters"
    else checkArgsLoop policy rest

/-- Model of `EnhancedSecurityManager::validate_command` (lines 303-349):
injection check on the command, base-name resolution, whitelist lookup,
first-argument allow-list, then the per-argument loop.  Error strings are
the source messages with the quoted interpolations flattened. -/
def validate_command (wl : List (String × CommandPolicy)) (command : String)
    (args : List String) : Except String Unit :=
  if cmdInjection command.data then .error "Command contains dangerous characters"
  else
    match List.lookup (fileName command) wl with
    | some policy =>
      match policy.allowed_args with
      | some allowed =>
        if !args.isEmpty && !(allowed.contains (args.headD "")) then
          .error ("Command with this first argument is not allowed: " ++ args.headD "")
        else checkArgsLoop policy args
      | none => checkArgsLoop policy args
    | none => .error ("Command is not whitelisted: " ++ fileName command)

/-! ## Tool executor (`tool_executor.rs`) -/

/-- The uniform tool result (lines 12-17). -/
structure ToolResult where
  success : Bool
  output : String
  error : Option String
deriving DecidableEq

/-- Minimal model of `serde_json::Value`. -/
inductive JValue where
  | null
  | str (s : String)
  | obj (fields : List (String × JValue))

/-- Model of `Value` indexing `args[key]`: `Null` when absent or not an object. -/
def JValue.getField : JValue → String → JValue
  | .obj fields, k =>
    match List.lookup k fields with
    | some v => v
    | none => .null
  | _, _ => .null

/-- Model of `Value::as_str`. -/
def JValue.asStr : JValue → Option String
  | .str s => some s
  | _ => none

/-- A file I/O action actually performed by a tool; the second component of
each tool function below is the trace of such actions, so "performs no I/O"
is "the trace is empty". -/
inductive IOAction where
  | readF (path : String)
  | writeF (path content : String)
  | readDirF (path : String)
deriving DecidableEq

/-- A directory entry as surfaced by `list_directory` (name, is-dir, size). -/
structure DirEntry where
  name : String
  isDir : Bool
  size : Nat

/-- The ambient filesystem behaviour seen by the tool: what each I/O
primitive would return, errors carrying the I/O error string. -/
structure FsWorld where
  readToString : String → Except String String
  write : String → String → Except String Unit
  readDir : String → Except String (List DirEntry)

/-- Rendering of the entry list (`serde_json::to_string_pretty`, line 130),
abstracted to a simple deterministic encoding; no claim inspects this text. -/
def renderEntries (entries : List DirEntry) : String :=
  entries.foldl
    (fun acc e =>
      acc ++ e.name ++ ":" ++ (if e.isDir then "dir" else "file") ++ ":" ++ Nat.repr e.size ++ ";")
    ""

/-- Model of `FileSystemTool::read_file` (lines 37-65): path parameter, raw
string-prefix check against the allowed roots, then the read with its error
captured into the result. -/
def FileSystemTool.read_file (roots : List String) (w : FsWorld) (args : JValue) :
    Except String ToolResult × List IOAction :=
  match (args.getField "path").asStr with
  | none => (.error "Missing path parameter", [])
  | some path =>
    if roots.any (fun root => strHasRoot root path) then
      match w.readToString path with
      | .ok content => (.ok ⟨true, content, none⟩, [.readF path])
      | .error e => (.ok ⟨false, "", some e⟩, [.readF path])
    else (.ok ⟨false, "", some "Path not in allowed roots"⟩, [])

/-- Model of `FileSystemTool::write_file` (lines 67-97). -/
def FileSystemTool.write_file (roots : List String) (w : FsWorld) (args : JValue) :
    Except String ToolResult × List IOAction :=
  match (args.getField "path").asStr with
  | none => (.error "Missing path parameter", [])
  | some path =>
    match (args.getField "content").asStr with
    | none => (.error "Missing content parameter", [])
    | some content =>
      if roots.any (fun root => strHasRoot root path) then
        match w.write path content with
        | .ok _ => (.ok ⟨true, "File written: " ++ path, none⟩, [.writeF path content])
        | .error e => (.ok ⟨false, "", some e⟩, [.writeF path content])
      else (.ok ⟨false, "", some "Path not in allowed roots"⟩, [])

/-- Model of `FileSystemTool::list_directory` (lines 99-133): the `?` on
`read_dir` (and on the entry stream, collapsed here into `readDir`)
propagates the I/O error as a hard `Err` instead of a `ToolResult`. -/
def FileSystemTool.list_directory (roots : List String) (w : FsWorld) (args : JValue) :
    Except String ToolResult × List IOAction :=
  match (args.getField "path").asStr with
  | none => (.error "Missing path parameter", [])
  | some path =>
    if roots.any (fun root => strHasRoot root path) then
      match w.readDir path with
      | .ok entries => (.ok ⟨true, renderEntries entries, none⟩, [.readDirF path])
      | .error e => (.error e, [.readDirF path])
    else (.ok ⟨false, "", some "Path not in allowed roots"⟩, [])

/-- Model of `FileSystemTool::execute` (lines 168-179): dispatch on `action`. -/
def FileSystemTool.execute (roots : List String) (w : FsWorld) (args : JValue) :
    Except String ToolResult × List IOAction :=
  match (args.getField "action").asStr with
  | some "read" => FileSystemTool.read_file roots w args
  | some "write" => FileSystemTool.write_file roots w args
  | some "list" => FileSystemTool.list_directory roots w args
  | _ => (.ok ⟨false, "", some "Invalid action"⟩, [])

/-- The registry maps names to capabilities; a capability is its `execute`
entry point (`tool_executor.rs` lines 347-361). -/
def ToolRegistry : Type :=
  List (String × (JValue → Except String ToolResult))

/-- Model of `ToolRegistry::execute` (lines 374-379): not-found lookup error,
otherwise the capability result is returned as is, so a capability `Err`
propagates. -/
def ToolRegistry.execute (reg : ToolRegistry) (name : String) (args : JValue) :
    Except String ToolResult :=
  match List.lookup name reg with
  | none => .error ("Tool not found: " ++ name)
  | some f => f args

/-! ## Voice pipeline (`voice_system.rs`) -/

/-- Session configuration (lines 13-36). -/
structure VoiceConfig where
  stt_provider : String
  tts_provider : String
  voice_model : String
  tts_voice : String
  language : String
  wake_word : String
  audio_format : String
deriving DecidableEq

/-- The defaults of `VoiceConfig::default` (lines 24-36). -/
def defaultVoiceConfig : VoiceConfig :=
  ⟨"openai", "openai", "whisper-1", "alloy", "en", "hey brain", "webm"⟩

/-- Per-session voice state (lines 38-46); audio bytes as naturals. -/
structure VoiceSession where
  id : String
  config : VoiceConfig
  is_active : Bool
  audio_buffer : List Nat
  wake_word_detected : Bool
  conversation_active : Bool
deriving DecidableEq

/-- Fresh session state built by `create_session` (lines 126-133). -/
def mkVoiceSession (sid : String) (cfg : VoiceConfig) : VoiceSession :=
  ⟨sid, cfg, true, [], false, false⟩

/-- The id string built by `create_session` (line 124):
`format!("voice_{}", timestamp_millis)`. -/
def voiceSessionId (nowMillis : Nat) : String :=
  "voice_" ++ Nat.repr nowMillis

/-- The realtime session id (realtime_voice.rs line 110) is exactly the
freshly generated v4 UUID rendered to a string. -/
def realtimeSessionId (uuid : String) : String :=
  uuid

/-- Shared session mappings, keyed by session id (`HashMap` behind a lock). -/
def SessionMap (σ : Type) : Type :=
  List (String × σ)

/-- `HashMap::remove`: drop the binding of `k`. -/
def eraseKey {σ : Type} (k : String) (m : SessionMap σ) : SessionMap σ :=
  m.filter fun p => !(p.1 == k)

/-- `HashMap::insert`: bind `k` to `v`, replacing any existing binding. -/
def insertReplace {σ : Type} (k : String) (v : σ) (m : SessionMap σ) : SessionMap σ :=
  (k, v) :: eraseKey k m

/-- Model of `EnhancedVoiceManager::create_session` (lines 123-144) at the
map level: build the session from the millisecond clock reading, insert it
(replacing any binding with the same id), return the new map and the id. -/
def createVoiceSession (m : SessionMap VoiceSession) (cfg : VoiceConfig)
    (nowMillis : Nat) : SessionMap VoiceSession × String :=
  let sid := voiceSessionId nowMillis
  (insertReplace sid (mkVoiceSession sid cfg) m, sid)

/-- Model of `EnhancedVoiceManager::stop_session` (lines 146-176): when the
id is present, deactivate and flush the remaining buffer (host emissions and
the final transcription do not touch the map), then remove the entry; either
way the function returns `Ok`.  Host event emission is modelled as
infallible. -/
def stop_session (m : SessionMap VoiceSession) (sid : String) :
    Except String (SessionMap VoiceSession) :=
  match List.lookup sid m with
  | some _sess => .ok (eraseKey sid m)
  | none => .ok (eraseKey sid m)

/-- Byte threshold per input encoding (lines 192-196). -/
def bufferThreshold (fmt : String) : Nat :=
  if fmt = "webm" then 16000
  else if fmt = "wav" then 32000
  else 16000

/-- Model of the synchronous part of `EnhancedVoiceManager::add_audio_chunk`
(lines 178-206): reject inactive sessions, append the chunk, and when the
buffer length reaches the provider threshold hand the whole buffer to one
spawned transcription (the `some` component) and clear it. -/
def add_audio_chunk (sess : VoiceSession) (chunk : List Nat) :
    Except String (VoiceSession × Option (List Nat)) :=
  if !sess.is_active then .error "Session is not active"
  else
    let buf := sess.audio_buffer ++ chunk
    if bufferThreshold sess.config.audio_format ≤ buf.length then
      .ok ({ sess with audio_buffer := [] }, some buf)
    else
      .ok ({ sess with audio_buffer := buf }, none)

/-- Outcome of the spawned transcription task (lines 213-263) on one
transcript: whether the wake signal fired, the emitted command (if any) and
the updated session flags. -/
structure TranscriptOutcome where
  wakeEmitted : Bool
  command : Option String
  conversationActive : Bool
  wakeWordDetected : Bool
deriving DecidableEq

/-- Model of the transcript-handling branch of the spawned task in
`add_audio_chunk` (lines 216-256): when neither flag is set, search the
LOWERCASED transcript for the lowercased wake word; on a hit, set both
flags, emit the wake signal, and emit as command the trimmed
`split(wake).nth(1)` remainder of the lowercased transcript unless empty;
when the conversation is active, emit the trimmed transcript as command. -/
def processTranscript (wakeWord : String) (convActive wakeDet : Bool)
    (transcript : String) : TranscriptOutcome :=
  let tl := lowerL transcript.data
  let wl := lowerL wakeWord.data
  if !convActive && !wakeDet then
    if containsL tl wl then
      let cmd := trimL (splitNth1 wl tl)
      { wakeEmitted := true
        command := if cmd.isEmpty then none else some (String.mk cmd)
        conversationActive := true
        wakeWordDetected := true }
    else ⟨false, none, convActive, wakeDet⟩
  else if convActive then
    ⟨false, some (String.mk (trimL transcript.data)), convActive, wakeDet⟩
  else ⟨false, none, convActive, wakeDet⟩

/-! ## Realtime session protocol bridge (`realtime_voice.rs`) -/

/-- Per-session bridge state (lines 30-37); `tx` records whether the
outbound channel handle is present. -/
structure RealtimeSession where
  id : String
  is_active : Bool
  is_sleeping : Bool
  tx : Bool
deriving DecidableEq

/-- Content parts of a conversation item (lines 77-92). -/
inductive ContentPart where
  | text (t : String)
  | audio (a : String)
  | functionCall (call_id name arguments : String)

/-- A conversation item (lines 70-75). -/
structure ConvItem where
  id : String
  role : String
  content : Option (List ContentPart)

/-- Decoded inbound events (lines 39-68); only the constructors the claims
touch carry payloads here. -/
inductive RealtimeEvent where
  | conversationItemCreated (item : ConvItem)
  | responseTranscriptDelta (delta : String)
  | speechStarted
  | speechStopped
  | errorEv (error : String)

/-- Frames enqueued on a session's outbound flow. -/
inductive OutFrame where
  | functionCallOutput (call_id output : String)
  | responseCreate
deriving DecidableEq

/-- The result carried by the function-call-output frame
(`execute_tool_call`, lines 296-303): the registry result, or the failure
wrapped into a `ToolResult`. -/
def toolCallResult (reg : ToolRegistry) (name : String) (args : JValue) : ToolResult :=
  match ToolRegistry.execute reg name args with
  | .ok r => r
  | .error e => ⟨false, "Tool execution failed: " ++ e, some e⟩

/-- Model of `RealtimeVoiceManager::execute_tool_call` (lines 286-333): run
the registry, then, when the session is present and its outbound channel
alive, enqueue the function-call-output frame followed by the
response-create frame. -/
def execute_tool_call (reg : ToolRegistry) (call_id name : String) (args : JValue)
    (sessions : SessionMap RealtimeSession) (sid : String) : List OutFrame :=
  let result := toolCallResult reg name args
  match List.lookup sid sessions with
  | some s =>
    if s.tx then [.functionCallOutput call_id result.output, .responseCreate]
    else []
  | none => []

/-- A JSON parser for the function-call argument string; `serde_json` is
library code, so it enters the model as a parameter. -/
def JsonParser : Type :=
  String → Option JValue

/-- Outbound frames produced for one content part of a
conversation-item-created event (lines 227-253): text and audio parts only
emit to the host; a function-call part with parsable arguments runs the
tool call. -/
def framesForPart (reg : ToolRegistry) (parse : JsonParser)
    (sessions : SessionMap RealtimeSession) (sid : String) : ContentPart → List OutFrame
  | .text _ => []
  | .audio _ => []
  | .functionCall call_id name argsStr =>
    match parse argsStr with
    | some args => execute_tool_call reg call_id name args sessions sid
    | none => []

/-- Sequential processing of the parts list (the `for part in content_parts`
loop): outbound frames appear in part order. -/
def framesForParts (reg : ToolRegistry) (parse : JsonParser)
    (sessions : SessionMap RealtimeSession) (sid : String) : List ContentPart → List OutFrame
  | [] => []
  | p :: ps =>
    framesForPart reg parse sessions sid p ++ framesForParts reg parse sessions sid ps

/-- Model of the outbound-frame effect of
`RealtimeVoiceManager::handle_realtime_event` (lines 217-284); the
host-emission side effects and the sleep-flag update of the
transcript-delta arm produce no outbound frames. -/
def handle_realtime_event (reg : ToolRegistry) (parse : JsonParser)
    (sessions : SessionMap RealtimeSession) (sid : String) :
    RealtimeEvent → List OutFrame
  | .conversationItemCreated item =>
    match item.content with
    | some parts => framesForParts reg parse sessions sid parts
    | none => []
  | _ => []

/-- Model of `RealtimeVoiceManager::close_session` (lines 366-374): remove
the entry if present (deactivating and dropping the channel of the removed
value only), always returning `Ok`. -/
def close_session (m : SessionMap RealtimeSession) (sid : String) :
    Except String (SessionMap RealtimeSession) :=
  .ok (eraseKey sid m)

end LocalBrain




namespace LocalBrain

/-! ## Helper lemmas -/

theorem all_dropLast {α : Type} (p : α → Bool) (l : List α) (h : l.all p = true) :
    l.dropLast.all p = true := by
  rw [List.all_eq_true] at h ⊢
  exact fun a ha => h a (List.dropLast_subset l ha)

theorem foldl_canonStep_all (fs : FsModel) (l : List String) :
    ∀ o : Option (List String),
      (∀ x, o = some x → x.all (fun c => !(c == "..")) = true) →
      ∀ y, l.foldl (canonStep fs) o = some y → y.all (fun c => !(c == "..")) = true := by
  induction l with
  | nil => intro o h y hy; exact h y hy
  | cons c cs ih =>
    intro o h y hy
    refine ih (canonStep fs o c) ?_ y hy
    intro x hx
    cases o with
    | none => simp [canonStep] at hx
    | some acc =>
      have hacc := h acc rfl
      simp only [canonStep] at hx
      by_cases hc : c = ".."
      · rw [if_pos hc] at hx
        split at hx
        · cases hx
          exact all_dropLast _ _ hacc
        · cases hx
      · rw [if_neg hc] at hx
        split at hx
        · cases hx
          rw [List.all_append]
          simp [hacc]
          simpa using hc
        · cases hx

theorem canonicalizeM_noDotDot (fs : FsModel) (comps canon : List String)
    (h : canonicalizeM fs comps = some canon) :
    canon.all (fun c => !(c == "..")) = true := by
  unfold canonicalizeM at h
  refine foldl_canonStep_all fs comps _ ?_ canon h
  intro x hx
  by_cases h0 : fs.entries.contains [] = true
  · rw [if_pos h0] at hx
    cases hx
    rfl
  · rw [if_neg h0] at hx
    cases hx

theorem renderL_head (comps : List String) : headIsL (renderL comps) '/' = true := by
  cases comps with
  | nil => rfl
  | cons c cs => simp [renderL, renderAux, headIsL]

end LocalBrain

namespace LocalBrain

/-! ## C2 -/

/-- The claim's own notion of a traversal pattern: `..` adjacent to a path
separator (stated from the spec sentence, for comparison with the source
regex). -/
def specTravPattern (s : String) : Bool :=
  containsL s.data "/..".data || containsL s.data "../".data ||
    containsL s.data "\\..".data || containsL s.data "..\\".data

/-- C2 (amended): for every raw path string matched by the source traversal
regex (`..` followed by any character, or `..` preceded by a non-separator),
`validate_path` denies, and it does so for every filesystem state — the
check is textual on the raw string, before any canonicalization. -/
theorem c2_traversal_text_check (path : String) (h : travMatch path.data = true)
    (cfg : PolicyCfg) (fs : FsModel) :
    isErrE (validate_path cfg fs path) = true := by
  unfold validate_path
  cases hd : dangerousL path.data <;> simp [hd, h, isErrE]

/-- Witness for `c2_traversal_text_check` at the claim's own example. -/
theorem c2_traversal_text_check_witness :
    travMatch "a/../../etc/passwd".data = true ∧
    isErrE (validate_path ⟨none, [["tmp"]], []⟩ ⟨[], none⟩ "a/../../etc/passwd") = true :=
  ⟨by decide, c2_traversal_text_check "a/../../etc/passwd" (by decide) _ _⟩

/-- Shared concrete configuration: `/tmp` allowed, default blocked list. -/
def cfgTmp : PolicyCfg :=
  ⟨none, [["tmp"]], defaultBlockedPaths⟩

/-- Counterexample to C2 as stated: `/tmp/foo/..` contains `..` adjacent to
a separator, yet the regex misses a trailing separator-preceded `..`, so
`validate_path` canonicalizes it and ACCEPTS it (filesystem where
`/tmp/foo` exists). -/
theorem c2_counterexample :
    specTravPattern "/tmp/foo/.." = true ∧
    travMatch "/tmp/foo/..".data = false ∧
    validate_path cfgTmp ⟨[[], ["tmp"], ["tmp", "foo"]], none⟩ "/tmp/foo/.." = .ok ["tmp"] :=
  ⟨by decide, by decide, by rfl⟩

/-! ## C3 -/

/-- C3 (amended): for every path that passes the control-character and
traversal-pattern text checks, whose base form resolves and whose
canonicalization succeeds — realpath semantics: the root and every
traversed component, the final one included, exist — with a result that
lies under an allowed root and contains no blocked substring,
`validate_path` succeeds and returns exactly that canonical form: an
absolute path with no remaining `..` segments. -/
theorem c3_canonical_success (cfg : PolicyCfg) (fs : FsModel) (path : String)
    (comps canon : List String)
    (hd : dangerousL path.data = false) (ht : travMatch path.data = false)
    (hb : parseBase cfg fs path = .ok comps)
    (hcanon : canonicalizeM fs comps = some canon)
    (hr : cfg.allowedRoots.any (fun r => List.isPrefixOf r canon) = true)
    (hbl : cfg.blockedPaths.any (fun b => containsL (renderL canon) b.data) = false) :
    validate_path cfg fs path = .ok canon ∧
    canon.all (fun c => !(c == "..")) = true ∧
    headIsL (renderL canon) '/' = true := by
  refine ⟨?_, canonicalizeM_noDotDot fs comps canon hcanon, renderL_head _⟩
  have hr' : ∃ x ∈ cfg.allowedRoots, x <+: canon := by simpa using hr
  have hbl' : ¬∃ x ∈ cfg.blockedPaths, containsL (renderL canon) x.data = true := by
    simpa using hbl
  unfold validate_path normalize_path
  simp [hd, ht, hb, hcanon, hr', hbl']

/-- Shared concrete filesystem where `/tmp/ok` exists. -/
def fsOk : FsModel :=
  ⟨[[], ["tmp"], ["tmp", "ok"]], none⟩

/-- Witness for `c3_canonical_success` on `/tmp/ok`. -/
theorem c3_canonical_success_witness :
    validate_path cfgTmp fsOk "/tmp/ok" = .ok ["tmp", "ok"] ∧
    (["tmp", "ok"] : List String).all (fun c => !(c == "..")) = true ∧
    headIsL (renderL ["tmp", "ok"]) '/' = true :=
  c3_canonical_success cfgTmp fsOk "/tmp/ok" (parsePath "/tmp/ok") ["tmp", "ok"]
    (by decide) (by decide) (by rfl) (by decide) (by decide) (by decide)

/-- Shared concrete filesystem where a directory literally named `a..b`
exists under `/tmp`. -/
def fsAB : FsModel :=
  ⟨[[], ["tmp"], ["tmp", "a..b"]], none⟩

/-- Counterexample to C3 as stated: the canonical form of `/tmp/a..b` exists
under the allowed root and matches no blocked substring, yet `validate_path`
denies it, because the traversal regex also fires on a literal file name
containing `..`. -/
theorem c3_counterexample :
    canonicalizeM fsAB (parsePath "/tmp/a..b") = some ["tmp", "a..b"] ∧
    cfgTmp.allowedRoots.any
      (fun r => List.isPrefixOf r ["tmp", "a..b"]) = true ∧
    cfgTmp.blockedPaths.any
      (fun b => containsL (renderL ["tmp", "a..b"]) b.data) = false ∧
    validate_path cfgTmp fsAB "/tmp/a..b" = .error "Path traversal detected" :=
  ⟨by decide, by decide, by decide, by rfl⟩

end LocalBrain

namespace LocalBrain

/-! ## C1 -/

/-- C1 (amended): every filesystem-tool action checks only that the raw path
string carries one of the tool's own allowed roots as a string prefix; when
no root is a prefix it performs no file I/O (empty trace) and returns the
uniform `Path not in allowed roots` failure result. -/
theorem c1_prefix_only_gate (roots : List String) (w : FsWorld) (args : JValue)
    (path : String)
    (hpath : (args.getField "path").asStr = some path)
    (hroots : roots.any (fun root => strHasRoot root path) = false) :
    FileSystemTool.read_file roots w args
      = (.ok ⟨false, "", some "Path not in allowed roots"⟩, []) ∧
    (∀ content, (args.getField "content").asStr = some content →
      FileSystemTool.write_file roots w args
        = (.ok ⟨false, "", some "Path not in allowed roots"⟩, [])) ∧
    FileSystemTool.list_directory roots w args
      = (.ok ⟨false, "", some "Path not in allowed roots"⟩, []) := by
  refine ⟨?_, ?_, ?_⟩
  · unfold FileSystemTool.read_file
    rw [hpath]
    simp [hroots]
  · intro content hc
    unfold FileSystemTool.write_file
    rw [hpath, hc]
    simp [hroots]
  · unfold FileSystemTool.list_directory
    rw [hpath]
    simp [hroots]

/-- Shared concrete ambient filesystem: reads yield `secret`, writes
succeed, listing fails with `io failure`. -/
def wSecret : FsWorld :=
  ⟨fun _ => .ok "secret", fun _ _ => .ok (), fun _ => .error "io failure"⟩

/-- Concrete arguments that hold a `/tmp`-rooted path outside the roots. -/
def argsOutside : JValue :=
  .obj [("action", .str "read"), ("path", .str "/etc/passwd"), ("content", .str "x")]

/-- Witness for `c1_prefix_only_gate`: with only `/tmp` allowed, each of the
three actions on `/etc/passwd` performs no I/O and fails uniformly. -/
theorem c1_prefix_only_gate_witness :
    FileSystemTool.read_file ["/tmp"] wSecret argsOutside
      = (.ok ⟨false, "", some "Path not in allowed roots"⟩, []) ∧
    FileSystemTool.write_file ["/tmp"] wSecret argsOutside
      = (.ok ⟨false, "", some "Path not in allowed roots"⟩, []) ∧
    FileSystemTool.list_directory ["/tmp"] wSecret argsOutside
      = (.ok ⟨false, "", some "Path not in allowed roots"⟩, []) := by
  have h := c1_prefix_only_gate ["/tmp"] wSecret argsOutside "/etc/passwd" (by rfl) (by decide)
  exact ⟨h.1, h.2.1 "x" (by rfl), h.2.2⟩

/-- Concrete arguments holding a traversal path that begins with `/tmp`. -/
def argsTraversalRead : JValue :=
  .obj [("action", .str "read"), ("path", .str "/tmp/../etc/passwd")]

/-- Counterexample to C1 as stated: the Policy Engine denies
`/tmp/../etc/passwd` (for every filesystem state — here the empty one), yet
the filesystem tool's read action accepts it on the raw prefix check and
performs the read I/O on it. -/
theorem c1_counterexample :
    isErrE (validate_path cfgTmp ⟨[], none⟩ "/tmp/../etc/passwd") = true ∧
    FileSystemTool.execute ["/tmp"] wSecret argsTraversalRead
      = (.ok ⟨true, "secret", none⟩, [.readF "/tmp/../etc/passwd"]) :=
  ⟨by rfl, by rfl⟩

/-! ## C4 -/

/-- C4 (amended): `execute(name, args)` fails with the not-found error
exactly when no tool of that name is registered, and otherwise returns
exactly what the capability returns; for the filesystem capability a read
I/O failure is captured into a `success = false` `ToolResult`, but an I/O
failure during a directory listing is returned as a hard error of the
capability and hence of `execute`. -/
theorem c4_registry_execute :
    (∀ (reg : ToolRegistry) (name : String) (args : JValue),
      List.lookup name reg = none →
      ToolRegistry.execute reg name args = .error ("Tool not found: " ++ name)) ∧
    (∀ (reg : ToolRegistry) (name : String) (args : JValue)
        (f : JValue → Except String ToolResult),
      List.lookup name reg = some f →
      ToolRegistry.execute reg name args = f args) ∧
    (∀ (roots : List String) (w : FsWorld) (args : JValue) (path e : String),
      (args.getField "path").asStr = some path →
      roots.any (fun root => strHasRoot root path) = true →
      w.readToString path = .error e →
      FileSystemTool.read_file roots w args = (.ok ⟨false, "", some e⟩, [.readF path])) ∧
    (∀ (roots : List String) (w : FsWorld) (args : JValue) (path e : String),
      (args.getField "path").asStr = some path →
      roots.any (fun root => strHasRoot root path) = true →
      w.readDir path = .error e →
      FileSystemTool.list_directory roots w args = (.error e, [.readDirF path])) := by
  refine ⟨?_, ?_, ?_, ?_⟩
  · intro reg name args h
    unfold ToolRegistry.execute
    rw [h]
  · intro reg name args f h
    unfold ToolRegistry.execute
    rw [h]
  · intro roots w args path e hpath hroots hread
    unfold FileSystemTool.read_file
    rw [hpath]
    simp [hroots, hread]
  · intro roots w args path e hpath hroots hdir
    unfold FileSystemTool.list_directory
    rw [hpath]
    simp [hroots, hdir]

/-- Witness for `c4_registry_execute`: the not-found case on an empty
registry, and a listing I/O failure escalating out of the capability. -/
theorem c4_registry_execute_witness :
    ToolRegistry.execute [] "missing" .null = .error "Tool not found: missing" ∧
    FileSystemTool.list_directory ["/tmp"] wSecret (.obj [("path", .str "/tmp/x")])
      = (.error "io failure", [.readDirF "/tmp/x"]) :=
  ⟨c4_registry_execute.1 [] "missing" .null rfl,
   c4_registry_execute.2.2.2 ["/tmp"] wSecret (.obj [("path", .str "/tmp/x")]) "/tmp/x"
     "io failure" (by rfl) (by decide) (by rfl)⟩

/-- A registry holding just the filesystem capability over `wSecret`. -/
def regFs : ToolRegistry :=
  [("filesystem", fun a => (FileSystemTool.execute ["/tmp"] wSecret a).1)]

/-- Counterexample to C4 as stated: the filesystem tool IS registered, yet
an I/O failure inside its directory listing escapes as a hard `Err` of
`ToolRegistry::execute` instead of a `success = false` `ToolResult`. -/
theorem c4_counterexample :
    (List.lookup "filesystem" regFs).isSome = true ∧
    ToolRegistry.execute regFs "filesystem"
        (.obj [("action", .str "list"), ("path", .str "/tmp/x")])
      = .error "io failure" :=
  ⟨by rfl, by rfl⟩

/-! ## C8 -/

/-- C8: `validate_command` denies every command whose path-stripped base
name has no whitelist entry; `git push` is denied although `git` itself is
whitelisted, while `git status` is accepted. -/
theorem c8_command_whitelist :
    (∀ (command : String) (args : List String),
      List.lookup (fileName command) defaultCommandWhitelist = none →
      isErrE (validate_command defaultCommandWhitelist command args) = true) ∧
    (List.lookup "git" defaultCommandWhitelist).isSome = true ∧
    isErrE (validate_command defaultCommandWhitelist "git" ["push"]) = true ∧
    validate_command defaultCommandWhitelist "git" ["status"] = .ok () := by
  refine ⟨?_, by rfl, by rfl, by rfl⟩
  intro command args h
  unfold validate_command
  cases hinj : cmdInjection command.data <;> simp [hinj, h, isErrE]

/-- Witness for `c8_command_whitelist`: `rm` has no whitelist entry and is
denied. -/
theorem c8_command_whitelist_witness :
    isErrE (validate_command defaultCommandWhitelist "rm" ["-rf", "/"]) = true :=
  c8_command_whitelist.1 "rm" ["-rf", "/"] (by rfl)

end LocalBrain

namespace LocalBrain

/-! ## C5 -/

theorem framesForParts_append (reg : ToolRegistry) (parse : JsonParser)
    (sessions : SessionMap RealtimeSession) (sid : String) (l1 l2 : List ContentPart) :
    framesForParts reg parse sessions sid (l1 ++ l2)
      = framesForParts reg parse sessions sid l1 ++ framesForParts reg parse sessions sid l2 := by
  induction l1 with
  | nil => rfl
  | cons p ps ih => simp [framesForParts, ih]

/-- C5: on a conversation-item-created event, every function-call part with
parsable JSON arguments makes the bridge invoke the Tool Registry and
enqueue, on that session's outbound flow, a function-call-output frame
carrying the result followed immediately by a response-create frame — in
that order, in the part's position — and a registry failure still produces
the output frame, carrying the wrapped failure text. -/
theorem c5_function_call_frames (reg : ToolRegistry) (parse : JsonParser)
    (sessions : SessionMap RealtimeSession) (sid : String) (item : ConvItem)
    (ps1 ps2 : List ContentPart) (call_id name argsStr : String) (args : JValue)
    (s : RealtimeSession)
    (hcontent : item.content
      = some (ps1 ++ ContentPart.functionCall call_id name argsStr :: ps2))
    (hparse : parse argsStr = some args)
    (hsess : List.lookup sid sessions = some s)
    (htx : s.tx = true) :
    handle_realtime_event reg parse sessions sid (.conversationItemCreated item)
      = framesForParts reg parse sessions sid ps1
        ++ OutFrame.functionCallOutput call_id (toolCallResult reg name args).output
          :: OutFrame.responseCreate
          :: framesForParts reg parse sessions sid ps2 ∧
    (∀ e, ToolRegistry.execute reg name args = .error e →
      (toolCallResult reg name args).output = "Tool execution failed: " ++ e) := by
  constructor
  · simp only [handle_realtime_event]
    rw [hcontent]
    show framesForParts reg parse sessions sid
        (ps1 ++ ContentPart.functionCall call_id name argsStr :: ps2) = _
    rw [framesForParts_append]
    simp [framesForParts, framesForPart, hparse, execute_tool_call, hsess, htx]
  · intro e he
    simp [toolCallResult, he]

/-- A live realtime session with its outbound channel present. -/
def sessionsRT : SessionMap RealtimeSession :=
  [("s1", ⟨"s1", true, false, true⟩)]

/-- A concrete one-entry JSON parser. -/
def parse0 : JsonParser :=
  fun s => if s = "args" then some .null else none

/-- Witness for `c5_function_call_frames`: on an empty registry the tool
call fails, yet the output frame (carrying the wrapped failure) still
precedes the response-create frame. -/
theorem c5_function_call_frames_witness :
    handle_realtime_event [] parse0 sessionsRT "s1"
      (.conversationItemCreated
        ⟨"i1", "assistant", some [.text "hi", .functionCall "c1" "echo" "args"]⟩)
      = [.functionCallOutput "c1" "Tool execution failed: Tool not found: echo",
         .responseCreate] := by
  have h := (c5_function_call_frames [] parse0 sessionsRT "s1"
    ⟨"i1", "assistant", some [.text "hi", .functionCall "c1" "echo" "args"]⟩
    [.text "hi"] [] "c1" "echo" "args" .null ⟨"s1", true, false, true⟩
    rfl (by rfl) rfl rfl).1
  exact h.trans (by rfl)

/-! ## C6 -/

/-- C6 (amended): while not conversation-active, the lowercased transcript
is searched for the lowercased wake phrase; on a match the session becomes
conversation-active, the wake signal fires, and the emitted command is the
trimmed segment of the LOWERCASED transcript that follows the first wake
phrase occurrence (up to any second occurrence), suppressed when empty; no
wake phrase while idle emits nothing; once conversation-active, the TRIMMED
transcript is emitted as the command. -/
theorem c6_wake_word (wakeWord transcript : String) :
    (containsL (lowerL transcript.data) (lowerL wakeWord.data) = true →
      processTranscript wakeWord false false transcript
        = { wakeEmitted := true
            command :=
              if (trimL (splitNth1 (lowerL wakeWord.data) (lowerL transcript.data))).isEmpty
              then none
              else some (String.mk
                (trimL (splitNth1 (lowerL wakeWord.data) (lowerL transcript.data))))
            conversationActive := true
            wakeWordDetected := true }) ∧
    (containsL (lowerL transcript.data) (lowerL wakeWord.data) = false →
      processTranscript wakeWord false false transcript = ⟨false, none, false, false⟩) ∧
    (∀ wd : Bool, processTranscript wakeWord true wd transcript
      = ⟨false, some (String.mk (trimL transcript.data)), true, wd⟩) := by
  refine ⟨?_, ?_, ?_⟩
  · intro h
    unfold processTranscript
    simp [h]
  · intro h
    unfold processTranscript
    simp [h]
  · intro wd
    rfl

/-- Witness for `c6_wake_word`, the spec's end-to-end scenario: transcript
`hey brain what time is it` while idle fires the wake signal and emits the
command `what time is it`. -/
theorem c6_wake_word_witness :
    processTranscript "hey brain" false false "hey brain what time is it"
      = ⟨true, some "what time is it", true, true⟩ := by
  have h := (c6_wake_word "hey brain" "hey brain what time is it").1 (by decide)
  exact h.trans (by decide)

/-- Counterexample to C6 as stated: for transcript `hey brain TIME` the
trimmed text following the wake phrase is `TIME`, but the emitted command is
the lowercased `time`; and in an active conversation the transcript ` hi `
is emitted trimmed, not entire. -/
theorem c6_counterexample :
    (processTranscript "hey brain" false false "hey brain TIME").command = some "time" ∧
    String.mk (trimL (splitNth1 "hey brain".data "hey brain TIME".data)) = "TIME" ∧
    some "time" ≠ some "TIME" ∧
    (processTranscript "hey brain" true true " hi ").command = some "hi" ∧
    some "hi" ≠ some (" hi " : String) := by
  refine ⟨by decide, by decide, by decide, by decide, by decide⟩

/-! ## C7 -/

/-- C7: `add_audio_chunk` appends the chunk to the session buffer; below the
provider threshold (16000 bytes for webm, 32000 for wav) no transcription
starts and the buffer keeps the appended bytes; at or above the threshold
exactly one transcription is handed the entire buffered byte sequence and
the buffer is cleared — no byte dropped or duplicated across the boundary. -/
theorem c7_buffer_threshold (sess : VoiceSession) (chunk : List Nat)
    (hactive : sess.is_active = true) :
    bufferThreshold "webm" = 16000 ∧ bufferThreshold "wav" = 32000 ∧
    ((sess.audio_buffer ++ chunk).length < bufferThreshold sess.config.audio_format →
      add_audio_chunk sess chunk
        = .ok ({ sess with audio_buffer := sess.audio_buffer ++ chunk }, none)) ∧
    (bufferThreshold sess.config.audio_format ≤ (sess.audio_buffer ++ chunk).length →
      add_audio_chunk sess chunk
        = .ok ({ sess with audio_buffer := [] }, some (sess.audio_buffer ++ chunk))) := by
  refine ⟨rfl, rfl, ?_, ?_⟩
  · intro h
    have h' : ¬bufferThreshold sess.config.audio_format
        ≤ sess.audio_buffer.length + chunk.length := by
      simpa using Nat.not_le.mpr h
    unfold add_audio_chunk
    simp [hactive, h']
  · intro h
    have h' : bufferThreshold sess.config.audio_format
        ≤ sess.audio_buffer.length + chunk.length := by
      simpa using h
    unfold add_audio_chunk
    simp [hactive, h']

/-- Witness for `c7_buffer_threshold`: a short chunk only accumulates; a
buffer of exactly 16000 webm bytes triggers the single transcription of all
buffered bytes and clears the buffer. -/
theorem c7_buffer_threshold_witness :
    add_audio_chunk (mkVoiceSession "s" defaultVoiceConfig) [1, 2, 3]
      = .ok ({ mkVoiceSession "s" defaultVoiceConfig with audio_buffer := [1, 2, 3] }, none) ∧
    add_audio_chunk
        { mkVoiceSession "s" defaultVoiceConfig with audio_buffer := List.replicate 16000 0 } []
      = .ok ({ mkVoiceSession "s" defaultVoiceConfig with audio_buffer := [] },
          some (List.replicate 16000 0)) := by
  constructor
  · exact (c7_buffer_threshold (mkVoiceSession "s" defaultVoiceConfig) [1, 2, 3]
      rfl).2.2.1 (by decide)
  · have hlen : (List.replicate 16000 (0 : Nat) ++ ([] : List Nat)).length = 16000 := by
      rw [List.append_nil, List.length_replicate]
    have h := (c7_buffer_threshold
      { mkVoiceSession "s" defaultVoiceConfig with audio_buffer := List.replicate 16000 0 } []
      rfl).2.2.2 (by rw [hlen]; exact Nat.le_refl 16000)
    exact h.trans (by rw [List.append_nil])

end LocalBrain

namespace LocalBrain

/-! ## C9 -/

/-- C9 (amended): two voice `create_session` calls return distinct ids
whenever their millisecond clock readings render to distinct decimal
strings; realtime ids are the generated v4 UUID strings, distinct whenever
the generated UUIDs differ.  (Two voice calls in the same millisecond
collide — see the counterexample.) -/
theorem c9_session_id_distinct (t1 t2 : Nat) (uuid1 uuid2 : String)
    (ht : Nat.repr t1 ≠ Nat.repr t2) (hu : uuid1 ≠ uuid2) :
    voiceSessionId t1 ≠ voiceSessionId t2 ∧
    realtimeSessionId uuid1 ≠ realtimeSessionId uuid2 := by
  constructor
  · intro h
    apply ht
    have hd : ("voice_" ++ Nat.repr t1).data = ("voice_" ++ Nat.repr t2).data :=
      congrArg String.data h
    rw [String.data_append, String.data_append] at hd
    have hd' : (Nat.repr t1).data = (Nat.repr t2).data := List.append_cancel_left hd
    cases hrepr1 : Nat.repr t1
    cases hrepr2 : Nat.repr t2
    rw [hrepr1, hrepr2] at hd'
    exact congrArg String.mk hd'
  · exact hu

/-- Witness for `c9_session_id_distinct`. -/
theorem c9_session_id_distinct_witness :
    voiceSessionId 1 ≠ voiceSessionId 2 ∧ realtimeSessionId "a" ≠ realtimeSessionId "b" :=
  c9_session_id_distinct 1 2 "a" "b" (by decide) (by decide)

/-- A second session configuration observably different from the default. -/
def cfgOther : VoiceConfig :=
  { defaultVoiceConfig with wake_word := "other" }

/-- The map after one voice `create_session` at millisecond 1000. -/
def voiceMap1 : SessionMap VoiceSession :=
  (createVoiceSession [] defaultVoiceConfig 1000).1

/-- The map after a second voice `create_session` in the same millisecond. -/
def voiceMap2 : SessionMap VoiceSession :=
  (createVoiceSession voiceMap1 cfgOther 1000).1

/-- Counterexample to C9 as stated: two voice `create_session` calls whose
millisecond clock readings coincide return the SAME id, and the second
insert silently replaces the first live session — the map has one entry,
holding the second session. -/
theorem c9_counterexample :
    (createVoiceSession [] defaultVoiceConfig 1000).2
      = (createVoiceSession voiceMap1 cfgOther 1000).2 ∧
    voiceMap2.length = 1 ∧
    List.lookup (voiceSessionId 1000) voiceMap2
      = some (mkVoiceSession (voiceSessionId 1000) cfgOther) :=
  ⟨rfl, by decide, by decide⟩

/-! ## C10 -/

theorem eraseKey_idem {σ : Type} (k : String) (m : SessionMap σ) :
    eraseKey k (eraseKey k m) = eraseKey k m := by
  unfold eraseKey
  rw [List.filter_filter]
  simp

theorem stop_session_eq (m : SessionMap VoiceSession) (sid : String) :
    stop_session m sid = .ok (eraseKey sid m) := by
  unfold stop_session
  cases List.lookup sid m <;> rfl

/-- C10: stopping (voice) or closing (realtime) the same session id a second
time is a no-op: the model functions are total (no panic), the second call
returns success, and the session map is unchanged. -/
theorem c10_stop_idempotent (vm : SessionMap VoiceSession)
    (rm : SessionMap RealtimeSession) (sid : String)
    (vm1 : SessionMap VoiceSession) (rm1 : SessionMap RealtimeSession)
    (hv : stop_session vm sid = .ok vm1) (hr : close_session rm sid = .ok rm1) :
    stop_session vm1 sid = .ok vm1 ∧ close_session rm1 sid = .ok rm1 := by
  have hv' : vm1 = eraseKey sid vm :=
    (Except.ok.inj ((stop_session_eq vm sid).symm.trans hv)).symm
  have hr' : rm1 = eraseKey sid rm := (Except.ok.inj hr).symm
  subst hv'
  subst hr'
  constructor
  · rw [stop_session_eq, eraseKey_idem]
  · unfold close_session
    rw [eraseKey_idem]

/-- Witness for `c10_stop_idempotent` on concrete one-entry maps. -/
theorem c10_stop_idempotent_witness :
    stop_session (eraseKey "s" [("s", mkVoiceSession "s" defaultVoiceConfig)]) "s"
      = .ok (eraseKey "s" [("s", mkVoiceSession "s" defaultVoiceConfig)]) ∧
    close_session (eraseKey "s" ([("s", (⟨"s", true, false, true⟩ : RealtimeSession))])) "s"
      = .ok (eraseKey "s" [("s", (⟨"s", true, false, true⟩ : RealtimeSession))]) :=
  c10_stop_idempotent [("s", mkVoiceSession "s" defaultVoiceConfig)]
    [("s", ⟨"s", true, false, true⟩)] "s"
    (eraseKey "s" [("s", mkVoiceSession "s" defaultVoiceConfig)])
    (eraseKey "s" [("s", ⟨"s", true, false, true⟩)])
    (by rfl) (by rfl)

end LocalBrain
